import Mathlib

/-!
Verification of the `password_breach_check` component (breach-lookup engine).

The development shallowly embeds the core of `src/password_breach_check.cc`:

* `sha1` / `generate_digest` — the digest engine (`Breach_checker::generate_digest`,
  lines 176-229).  The compression primitive itself lives in OpenSSL, outside this
  repository, so it is modelled by a standard SHA-1 implementation; the hex-encoding
  loop (lines 220-227) is translated directly.
* `lookupLoop` / `Breach_checker.password_breach_data` — the retrying lookup client
  (lines 265-319).  The network transport (libcurl) is an injected parameter
  `Transport`; an attempt that returns `none` corresponds to
  `curl_easy_perform != CURLE_OK`.
* `Breach_checker.check` — the orchestrator (lines 96-165), including the exact
  `std::string::find` / `std::stoll` based response parsing.  C++ exceptions thrown
  by `std::stoll` are modelled as `Except.error ()`; a result `Except.ok v`
  corresponds to a normal return of `v`.

Machine integers: `size_t` positions are modelled as `Option Nat` (`none` = `npos`);
the single place where the source does arithmetic on a possibly-`npos` position
(`out_data.substr(pos + 1)` where `pos` may be `npos`, so `pos + 1` wraps to `0`
in `size_t`) is modelled explicitly at that point.  `long long` is modelled as
`Int` with the `[-2^63, 2^63-1]` range check performed by `stoll`.
-/

set_option maxRecDepth 100000
set_option maxHeartbeats 1000000

namespace PasswordBreachCheck

/-! ## Character classes (ASCII, by code point) -/

/-- `isspace` characters skipped by `std::stoll` (space, \t, \n, \v, \f, \r). -/
def isSpaceC (c : Char) : Bool :=
  c.toNat == 32 || c.toNat == 9 || c.toNat == 10 ||
  c.toNat == 11 || c.toNat == 12 || c.toNat == 13

/-- decimal digit characters accepted by `std::stoll`. -/
def isDigitC (c : Char) : Bool := 48 ≤ c.toNat && c.toNat ≤ 57

/-- uppercase hexadecimal digit (`0`-`9`, `A`-`F`), the alphabet produced by
the digest hex encoding (`std::uppercase << std::hex`). -/
def isUpperHex (c : Char) : Bool :=
  (48 ≤ c.toNat && c.toNat ≤ 57) || (65 ≤ c.toNat && c.toNat ≤ 70)

/-! ## SHA-1 (the external crypto primitive)

Modelled from the spec: `Breach_checker::generate_digest` delegates the hash to
OpenSSL's `EVP_sha1` (`EVP_DigestInit/Update/Final`, lines 197-215), which is not
part of this repository.  The spec fixes it as "a fixed 20-byte cryptographic
hash (SHA-1) of the password", so the primitive is modelled by standard SHA-1
(FIPS 180) over the raw password bytes.  Words are `Nat` reduced mod `2^32`. -/

/-- `2^32`, the modulus of 32-bit machine arithmetic. -/
def MASK32 : Nat := 4294967296

/-- 32-bit left rotation (input assumed `< 2^32`). -/
def rotl (n w : Nat) : Nat := ((w <<< n) ||| (w >>> (32 - n))) % MASK32

/-- SHA-1 round function `f_t`. -/
def sha1F (t b c d : Nat) : Nat :=
  if t < 20 then (b &&& c) ||| ((b ^^^ 4294967295) &&& d)
  else if t < 40 then b ^^^ c ^^^ d
  else if t < 60 then (b &&& c) ||| (b &&& d) ||| (c &&& d)
  else b ^^^ c ^^^ d

/-- SHA-1 round constants `K_t`. -/
def sha1K (t : Nat) : Nat :=
  if t < 20 then 1518500249
  else if t < 40 then 1859775393
  else if t < 60 then 2400959708
  else 3395469782

/-- Big-endian packing of bytes into 32-bit words. -/
def toWords : List Nat → List Nat
  | b0 :: b1 :: b2 :: b3 :: rest =>
      (((b0 * 256 + b1) * 256 + b2) * 256 + b3) :: toWords rest
  | _ => []

/-- Extend the 16 chunk words by `k` more schedule words
(`w_t = rotl 1 (w_{t-3} xor w_{t-8} xor w_{t-14} xor w_{t-16})`). -/
def extendWords : Nat → List Nat → List Nat
  | 0, ws => ws
  | k + 1, ws =>
      let m := ws.length
      let nw := rotl 1 (ws.getD (m - 3) 0 ^^^ ws.getD (m - 8) 0 ^^^
                        ws.getD (m - 14) 0 ^^^ ws.getD (m - 16) 0)
      extendWords k (ws ++ [nw])

/-- One SHA-1 compression round on the `(a,b,c,d,e)` state. -/
def sha1Round (st : Nat × Nat × Nat × Nat × Nat) (tw : Nat × Nat) :
    Nat × Nat × Nat × Nat × Nat :=
  match st, tw with
  | (a, b, c, d, e), (t, w) =>
      let temp := (rotl 5 a + sha1F t b c d + e + sha1K t + w) % MASK32
      (temp, a, rotl 30 b, c, d)

/-- Process one 64-byte chunk: 80 rounds, then add into the running hash. -/
def processChunk (h : Nat × Nat × Nat × Nat × Nat) (chunk : List Nat) :
    Nat × Nat × Nat × Nat × Nat :=
  let ws := extendWords 64 (toWords chunk)
  match h, ws.enum.foldl sha1Round h with
  | (h0, h1, h2, h3, h4), (a, b, c, d, e) =>
      ((h0 + a) % MASK32, (h1 + b) % MASK32, (h2 + c) % MASK32,
       (h3 + d) % MASK32, (h4 + e) % MASK32)

/-- `k` bytes of `n`, big-endian. -/
def bytesBE : Nat → Nat → List Nat
  | 0, _ => []
  | j + 1, n => (n / 256 ^ j) % 256 :: bytesBE j n

/-- SHA-1 padding: `0x80`, zeros to 56 mod 64, then the bit length as 8 bytes. -/
def sha1Pad (msg : List Nat) : List Nat :=
  msg ++ 128 :: List.replicate ((119 - msg.length % 64) % 64) 0 ++
    bytesBE 8 (8 * msg.length)

/-- Split into 64-byte chunks (fuel-driven structural recursion; the fuel
`l.length` always suffices since each step consumes at least one byte). -/
def chunks64Go : Nat → List Nat → List (List Nat)
  | 0, _ => []
  | _, [] => []
  | f + 1, x :: xs => ((x :: xs).take 64) :: chunks64Go f ((x :: xs).drop 64)

/-- Split a padded message into 64-byte chunks. -/
def chunks64 (l : List Nat) : List (List Nat) := chunks64Go l.length l

/-- SHA-1 of a byte sequence: 20 bytes, big-endian words of the final state. -/
def sha1 (msg : List Nat) : List Nat :=
  match (chunks64 (sha1Pad msg)).foldl processChunk
      (1732584193, 4023233417, 2562383102, 271733878, 3285377520) with
  | (h0, h1, h2, h3, h4) =>
      bytesBE 4 h0 ++ bytesBE 4 h1 ++ bytesBE 4 h2 ++ bytesBE 4 h3 ++ bytesBE 4 h4

/-! ## Hex encoding and `generate_digest` (lines 176-229) -/

/-- One uppercase hexadecimal digit, as produced by
`std::hex << std::uppercase` for a value `< 16`. -/
def hexDigitChar (n : Nat) : Char := "0123456789ABCDEF".data.getD n 'X'

/-- Two zero-padded uppercase hex characters for one byte
(`std::setw(2) << std::setfill('0') << ... << (int)(unsigned char)character`,
lines 223-224). -/
def byteHex (b : Nat) : List Char := [hexDigitChar (b / 16), hexDigitChar (b % 16)]

/-- `Breach_checker::generate_digest` (lines 176-229): SHA-1 of the stored
password bytes, hex-encoded byte by byte (lines 221-226).  The OpenSSL failure
branches (lines 186, 197-215) are environment faults of the crypto library and
are not modelled; on the modelled path the function always succeeds. -/
def generate_digest (password : List Nat) : List Char :=
  ((sha1 password).map byteHex).flatten

/-! ## `std::string` search and `std::stoll` -/

/-- Index of the first occurrence of `needle` in `hay`
(`std::string::find`, with `none` for `npos`).  For the nonempty needles used
by `check()` this agrees with `std::string::find` at every position. -/
def findIdx0 (hay needle : List Char) : Option Nat :=
  match hay with
  | [] => none
  | c :: t =>
      if needle.isPrefixOf (c :: t) then some 0
      else (findIdx0 t needle).map (fun i => i + 1)

/-- `hay.find(needle, start)`: first occurrence at an index `≥ start`. -/
def findFrom (hay needle : List Char) (start : Nat) : Option Nat :=
  (findIdx0 (hay.drop start) needle).map (fun i => i + start)

/-- Numeric value of a digit run (the accumulator loop of `std::stoll`). -/
def digitsVal (ds : List Char) : Nat :=
  ds.foldl (fun a c => a * 10 + (c.toNat - 48)) 0

/-- `LLONG_MAX`. -/
def LLONG_MAX : Int := 9223372036854775807

/-- `LLONG_MIN`. -/
def LLONG_MIN : Int := -9223372036854775808

/-- `std::stoll` on the extracted count text (line 134 / 137): skip leading
whitespace, optional sign, then a nonempty digit run; no digits throws
`std::invalid_argument` and a value outside `long long` throws
`std::out_of_range` — both modelled as `Except.error ()` (an exception
escaping `check()`). -/
def stoll (s : List Char) : Except Unit Int :=
  match s.dropWhile isSpaceC with
  | [] => .error ()
  | c :: rest =>
      let neg := c == '-'
      let body := if c == '-' || c == '+' then rest else c :: rest
      let ds := body.takeWhile isDigitC
      if ds = [] then .error ()
      else
        let v : Int := if neg then -(digitsVal ds : Int) else (digitsVal ds : Int)
        if v < LLONG_MIN ∨ LLONG_MAX < v then .error () else .ok v

/-! ## The checker (lines 37-165, 265-319) -/

/-- The sentinel "unknown" result (`src/password_validation_impl.cc`, line 34). -/
def MAX_RETVAL : Int := 1000000

/-- Base endpoint for range queries (line 44). -/
def URL_PREFIX : List Char := "https://api.pwnedpasswords.com/range/".data

/-- The injected network transport (libcurl in the source): given the request
URL and the 0-based attempt number, returns `some body` when
`curl_easy_perform` succeeds (`CURLE_OK`) and `none` on any transport failure. -/
def Transport : Type := List Char → Nat → Option (List Char)

/-- The checker state: `ready_`, `password_` (raw bytes), `retry_`
(`src/password_breach_check.h`, lines 72-78). -/
structure Breach_checker where
  ready : Bool
  password : List Nat
  retry : Nat

/-- The `const char *` constructor (lines 70-71): a null pointer (`none`)
is replaced by the empty string, `ready_` is set, `retry_ = 3`. -/
def Breach_checker.fromCString (password : Option (List Nat)) : Breach_checker :=
  { ready := true, password := password.getD [], retry := 3 }

/-- The `my_h_string` constructor (lines 78-89): `converted` is the result of
the external `convert_to_buffer` service (`none` = conversion failure, in which
case `ready_` keeps its default `false` and the password stays empty); on
success the password is read with `strlen`, i.e. up to the first NUL byte. -/
def Breach_checker.fromMyHString (converted : Option (List Nat)) : Breach_checker :=
  match converted with
  | none => { ready := false, password := [], retry := 3 }
  | some buffer =>
      { ready := true, password := buffer.takeWhile (fun b => b != 0), retry := 3 }

/-- The retry loop of `password_breach_data` (lines 275-309): while
`retry > 0`, perform one attempt; on failure decrement and loop, on success
break.  Returns the body (if any) and the number of attempts performed.
`curl_easy_init` failure (line 280) is an environment fault and not modelled. -/
def lookupLoop (transport : Transport) (url : List Char) :
    Nat → Nat → Option (List Char) × Nat
  | 0, attempts => (none, attempts)
  | r + 1, attempts =>
      match transport url attempts with
      | some body => (some body, attempts + 1)
      | none => lookupLoop transport url r (attempts + 1)

/-- `Breach_checker::password_breach_data` (lines 265-319): build the URL by
appending the 5-character digest prefix to `URL_PREFIX` (lines 268-269), then
run the retry loop.  `none` corresponds to the `true` (failure) return. -/
def Breach_checker.password_breach_data (c : Breach_checker)
    (transport : Transport) (prefix5 : List Char) : Option (List Char) × Nat :=
  lookupLoop transport (URL_PREFIX ++ prefix5) c.retry 0

/-- `Breach_checker::check` (lines 96-165).  Returns the result together with
the number of transport attempts performed.  `Except.ok v` is a normal return
of `v`; `Except.error ()` is a C++ exception (from `std::stoll`) escaping
`check()`.  Parsing mirrors lines 114-138: `find(suffix)`, then `find(":", pos)`,
then `find("\r\n", pos)`; when the `":"` search yields `npos` the source
computes `substr(npos + 1)`, which wraps to `substr(0)` in `size_t`, i.e.
`stoll` over the whole body.  The logging block (lines 139-158) has no effect
on the returned value and is not modelled. -/
def Breach_checker.check (c : Breach_checker) (transport : Transport) :
    Except Unit Int × Nat :=
  if !c.ready || c.password.length == 0 then (.ok MAX_RETVAL, 0)
  else
    let sha1_digest := generate_digest c.password
    let prefix5 := sha1_digest.take 5
    let suffix35 := sha1_digest.drop 5
    match c.password_breach_data transport prefix5 with
    | (none, attempts) => (.ok MAX_RETVAL, attempts)
    | (some out_data, attempts) =>
      match findFrom out_data suffix35 0 with
      | none => (.ok 0, attempts)
      | some pos =>
        match findFrom out_data [':'] pos with
        | none => (stoll out_data, attempts)
        | some cp =>
          match findFrom out_data ['\r', '\n'] cp with
          | some nl => (stoll ((out_data.drop (cp + 1)).take (nl - cp - 1)), attempts)
          | none => (stoll (out_data.drop (cp + 1)), attempts)

/-! ## Response structure as described by the spec

Modelled from the spec: the Breach Candidate List is "an ordered sequence of
(suffix: 35 hex chars, count: non-negative integer) records, line-delimited",
lines separated by `\r\n`, the suffix field of a line being the part before the
`:` separator.  These definitions are used only to state claims about lines and
suffix fields; `check()` itself never splits the response into lines. -/

/-- Split a response text at `\r\n` separators. -/
def splitCRLF : List Char → List (List Char)
  | [] => [[]]
  | '\r' :: '\n' :: rest => [] :: splitCRLF rest
  | c :: rest =>
      match splitCRLF rest with
      | [] => [[c]]
      | h :: t => (c :: h) :: t

/-- The suffix field of each line: the characters before the `:` separator. -/
def suffixFields (text : List Char) : List (List Char) :=
  (splitCRLF text).map (fun l => l.takeWhile (fun c => c != ':'))

/-! ## Concrete test fixtures (inputs for witnesses and counterexamples) -/

/-- The bytes of the password `"password"` (the spec's worked example). -/
def pwBytes : List Nat := "password".data.map Char.toNat

/-- A transport that fails on every attempt. -/
def failTransport : Transport := fun _ _ => none

/-- A transport that succeeds on every attempt with the fixed body `body`. -/
def constTransport (body : List Char) : Transport := fun _ _ => some body

/-- The 35-character suffix of the SHA-1 digest of `"password"` (the digest is
`5BAA61E4C9B93F3F0682250B6CF8331B7EE68FD8`). -/
def suffixPW : List Char := "1E4C9B93F3F0682250B6CF8331B7EE68FD8".data

/-- A checker built from the C string `"password"`. -/
def cPW : Breach_checker := Breach_checker.fromCString (some pwBytes)

/-- Response in which the suffix is found but the count field is not numeric. -/
def respC1 : List Char := suffixPW ++ ":xyz".data

/-- Response in which the suffix occurs only as a proper substring, not as any
line's suffix field (the single line's field starts with `AB`). -/
def respC2 : List Char := "AB".data ++ suffixPW ++ ":42".data

/-- Response with two lines carrying the same suffix field and different counts. -/
def respC3 : List Char := suffixPW ++ ":1\r\n".data ++ suffixPW ++ ":2".data

/-- Well-formed response whose matching line's count is exactly 1000000. -/
def respC5 : List Char := suffixPW ++ ":1000000".data

/-- The spec's worked example body for the prefix of `"password"`. -/
def respSpec : List Char := suffixPW ++ ":3861493".data

/-! ## Basic digest facts -/

theorem bytesBE_length (k n : Nat) : (bytesBE k n).length = k := by
  induction k generalizing n with
  | zero => rfl
  | succ j ih => simp [bytesBE, ih]

theorem bytesBE_lt (k n : Nat) : ∀ b ∈ bytesBE k n, b < 256 := by
  induction k generalizing n with
  | zero => intro b hb; simp [bytesBE] at hb
  | succ j ih =>
      intro b hb
      simp only [bytesBE, List.mem_cons] at hb
      rcases hb with rfl | hb
      · exact Nat.mod_lt _ (by norm_num)
      · exact ih n b hb

theorem sha1_length (m : List Nat) : (sha1 m).length = 20 := by
  unfold sha1
  rcases (chunks64 (sha1Pad m)).foldl processChunk
      (1732584193, 4023233417, 2562383102, 271733878, 3285377520) with
    ⟨h0, h1, h2, h3, h4⟩
  simp [bytesBE_length]

theorem sha1_lt (m : List Nat) : ∀ b ∈ sha1 m, b < 256 := by
  unfold sha1
  rcases (chunks64 (sha1Pad m)).foldl processChunk
      (1732584193, 4023233417, 2562383102, 271733878, 3285377520) with
    ⟨h0, h1, h2, h3, h4⟩
  intro b hb
  simp only [List.mem_append] at hb
  rcases hb with ((((h | h) | h) | h) | h) <;> exact bytesBE_lt _ _ _ h

theorem hexDigitChar_hex : ∀ n, n < 16 → isUpperHex (hexDigitChar n) = true := by
  decide

theorem flatten_byteHex_length (l : List Nat) :
    ((l.map byteHex).flatten).length = 2 * l.length := by
  induction l with
  | nil => rfl
  | cons x xs ih => simp [byteHex, ih]; omega

theorem mem_flatten_byteHex_hex (l : List Nat) (hl : ∀ b ∈ l, b < 256) :
    ∀ c ∈ (l.map byteHex).flatten, isUpperHex c = true := by
  intro c hc
  simp only [List.mem_flatten, List.mem_map] at hc
  obtain ⟨pair, ⟨b, hb, rfl⟩, hcp⟩ := hc
  have hb256 := hl b hb
  have h1 : b / 16 < 16 := by omega
  have h2 : b % 16 < 16 := Nat.mod_lt _ (by norm_num)
  simp only [byteHex, List.mem_cons, List.not_mem_nil, or_false] at hcp
  rcases hcp with rfl | rfl
  · exact hexDigitChar_hex _ h1
  · exact hexDigitChar_hex _ h2

theorem generate_digest_length (p : List Nat) : (generate_digest p).length = 40 := by
  unfold generate_digest
  rw [flatten_byteHex_length, sha1_length]

theorem generate_digest_hex (p : List Nat) :
    ∀ c ∈ generate_digest p, isUpperHex c = true :=
  mem_flatten_byteHex_hex _ (sha1_lt p)

/-! ## Character facts -/

theorem upperHex_toNat (c : Char) (h : isUpperHex c = true) :
    (48 ≤ c.toNat ∧ c.toNat ≤ 57) ∨ (65 ≤ c.toNat ∧ c.toNat ≤ 70) := by
  simpa [isUpperHex] using h

theorem upperHex_ne_colon (c : Char) (h : isUpperHex c = true) : c ≠ ':' := by
  intro he
  subst he
  exact absurd h (by decide)

theorem upperHex_ne_cr (c : Char) (h : isUpperHex c = true) : c ≠ '\r' := by
  intro he
  subst he
  exact absurd h (by decide)

theorem digit_toNat (c : Char) (h : isDigitC c = true) :
    48 ≤ c.toNat ∧ c.toNat ≤ 57 := by
  simpa [isDigitC] using h

theorem digit_not_space (c : Char) (h : isDigitC c = true) : isSpaceC c = false := by
  have hb := digit_toNat c h
  simp only [isSpaceC, Bool.or_eq_false_iff, beq_eq_false_iff_ne]
  omega

theorem digit_ne_dash (c : Char) (h : isDigitC c = true) : (c == '-') = false := by
  have hb := digit_toNat c h
  rw [beq_eq_false_iff_ne]
  intro he
  subst he
  revert hb
  decide

theorem digit_ne_plus (c : Char) (h : isDigitC c = true) : (c == '+') = false := by
  have hb := digit_toNat c h
  rw [beq_eq_false_iff_ne]
  intro he
  subst he
  revert hb
  decide

theorem digit_ne_cr (c : Char) (h : isDigitC c = true) : c ≠ '\r' := by
  have hb := digit_toNat c h
  intro he
  subst he
  revert hb
  decide

theorem colon_ne_cr : (':' : Char) ≠ '\r' := by decide

/-! ## `findIdx0` characterization -/

theorem findIdx0_eq_none (hay needle : List Char) (h : ¬ needle <:+: hay) :
    findIdx0 hay needle = none := by
  induction hay with
  | nil => rfl
  | cons c t ih =>
      have hp : needle.isPrefixOf (c :: t) = false := by
        cases hpf : needle.isPrefixOf (c :: t)
        · rfl
        · exact absurd (List.isPrefixOf_iff_prefix.mp hpf).isInfix h
      rw [findIdx0, hp]
      simp only [Bool.false_eq_true, if_false]
      rw [ih (fun hinf => h (List.infix_cons hinf))]
      rfl

theorem findIdx0_first (hay needle : List Char) (i : Nat) (hne : needle ≠ [])
    (hat : needle.isPrefixOf (hay.drop i) = true)
    (hbefore : ∀ j, j < i → needle.isPrefixOf (hay.drop j) = false) :
    findIdx0 hay needle = some i := by
  induction hay generalizing i with
  | nil =>
      exfalso
      rw [List.drop_nil] at hat
      cases needle with
      | nil => exact hne rfl
      | cons d ds => simp [List.isPrefixOf] at hat
  | cons c t ih =>
      cases i with
      | zero =>
          rw [List.drop_zero] at hat
          rw [findIdx0, hat]
          simp
      | succ k =>
          have h0 : needle.isPrefixOf (c :: t) = false := by
            have := hbefore 0 (Nat.succ_pos k)
            rwa [List.drop_zero] at this
          rw [findIdx0, h0]
          simp only [Bool.false_eq_true, if_false]
          have ht : findIdx0 t needle = some k := by
            apply ih
            · rwa [List.drop_succ_cons] at hat
            · intro j hj
              have := hbefore (j + 1) (Nat.succ_lt_succ hj)
              rwa [List.drop_succ_cons] at this
          rw [ht]
          rfl

theorem findFrom_zero (hay needle : List Char) :
    findFrom hay needle 0 = findIdx0 hay needle := by
  unfold findFrom
  rw [List.drop_zero]
  cases findIdx0 hay needle <;> simp

/-! ## Retry loop -/

theorem lookupLoop_allFail (t : Transport) (url : List Char)
    (h : ∀ u i, t u i = none) (r a : Nat) :
    lookupLoop t url r a = (none, a + r) := by
  induction r generalizing a with
  | zero => simp [lookupLoop]
  | succ k ih =>
      rw [lookupLoop, h, ih]
      have hsum : a + 1 + k = a + (k + 1) := by omega
      rw [hsum]

/-! ## `stoll` on a pure digit run -/

theorem stoll_digit_run (ds : List Char) (hne : ds ≠ [])
    (hall : ∀ c ∈ ds, isDigitC c = true)
    (hbound : (digitsVal ds : Int) ≤ LLONG_MAX) :
    stoll ds = .ok (digitsVal ds) := by
  cases ds with
  | nil => exact absurd rfl hne
  | cons d tl =>
      have hd := hall d (List.mem_cons_self d tl)
      have hds : (d :: tl).dropWhile isSpaceC = d :: tl := by
        rw [List.dropWhile_cons, digit_not_space d hd]
        simp
      unfold stoll
      rw [hds]
      simp only [digit_ne_dash d hd, digit_ne_plus d hd, Bool.or_self,
        Bool.false_eq_true, if_false]
      have htk : (d :: tl).takeWhile isDigitC = d :: tl :=
        List.takeWhile_eq_self_iff.mpr hall
      rw [htk]
      simp only [if_neg (List.cons_ne_nil d tl)]
      have hnn : (0 : Int) ≤ (digitsVal (d :: tl) : Int) := Int.natCast_nonneg _
      rw [if_neg]
      intro hcon
      rcases hcon with hlt | hgt
      · rw [LLONG_MIN] at hlt; omega
      · exact absurd hbound (by omega)

/-! ## `check()` branch lemmas -/

theorem check_cond_false (c : Breach_checker) (hready : c.ready = true)
    (hpw : c.password ≠ []) : (!c.ready || c.password.length == 0) = false := by
  have hlen : c.password.length ≠ 0 := fun h0 => hpw (List.length_eq_zero.mp h0)
  simp [hready, hlen]

theorem check_not_ready_or_empty (c : Breach_checker) (t : Transport)
    (h : c.ready = false ∨ c.password = []) :
    c.check t = (.ok MAX_RETVAL, 0) := by
  have hcond : (!c.ready || c.password.length == 0) = true := by
    rcases h with h | h
    · simp [h]
    · simp [h]
  unfold Breach_checker.check
  rw [hcond]
  simp

theorem check_of_no_occurrence (c : Breach_checker) (t : Transport)
    (out : List Char) (n : Nat)
    (hready : c.ready = true) (hpw : c.password ≠ [])
    (hlook : c.password_breach_data t ((generate_digest c.password).take 5) =
      (some out, n))
    (hno : ¬ (generate_digest c.password).drop 5 <:+: out) :
    c.check t = (.ok 0, n) := by
  have hfind : findFrom out ((generate_digest c.password).drop 5) 0 = none := by
    rw [findFrom_zero]
    exact findIdx0_eq_none _ _ hno
  simp only [Breach_checker.check, check_cond_false c hready hpw,
    Bool.false_eq_true, if_false, hlook, hfind]

theorem check_of_shaped (c : Breach_checker) (t : Transport) (S : List Char)
    (pre digits tail out : List Char) (n : Nat)
    (hready : c.ready = true) (hpw : c.password ≠ [])
    (hSeq : (generate_digest c.password).drop 5 = S)
    (hout : out = pre ++ S ++ ':' :: (digits ++ tail))
    (hfirst : ∀ j, j < pre.length → S.isPrefixOf (out.drop j) = false)
    (hdne : digits ≠ [])
    (hdall : ∀ ch ∈ digits, isDigitC ch = true)
    (hbound : (digitsVal digits : Int) ≤ LLONG_MAX)
    (htail : tail = [] ∨ ∃ rest, tail = '\r' :: '\n' :: rest)
    (hlook : c.password_breach_data t ((generate_digest c.password).take 5) =
      (some out, n)) :
    c.check t = (.ok (digitsVal digits), n) := by
  have hHex : ∀ ch ∈ S, isUpperHex ch = true := by
    intro ch hch
    rw [← hSeq] at hch
    exact generate_digest_hex _ ch (List.drop_subset 5 _ hch)
  have hSlen : S.length = 35 := by
    rw [← hSeq, List.length_drop, generate_digest_length]
  have hSne : S ≠ [] := by
    intro h0
    rw [h0] at hSlen
    simp at hSlen
  -- step 1: the suffix is found at position `pre.length`
  have hat : S.isPrefixOf (out.drop pre.length) = true := by
    rw [hout, List.append_assoc, List.drop_left]
    exact List.isPrefixOf_iff_prefix.mpr (List.prefix_append S _)
  have hfindS : findFrom out S 0 = some pre.length := by
    rw [findFrom_zero]
    exact findIdx0_first out S pre.length hSne hat hfirst
  -- step 2: the `":"` search from there lands right after the suffix
  have hdropPre : out.drop pre.length = S ++ ':' :: (digits ++ tail) := by
    rw [hout, List.append_assoc, List.drop_left]
  have hcolon0 : findIdx0 (S ++ ':' :: (digits ++ tail)) [':'] = some S.length := by
    apply findIdx0_first _ _ _ (List.cons_ne_nil ':' [])
    · rw [List.drop_left]
      simp [List.isPrefixOf]
    · intro j hj
      rw [List.drop_append_eq_append_drop]
      have hj0 : j - S.length = 0 := by omega
      rw [hj0, List.drop_zero, List.drop_eq_getElem_cons hj]
      have hne : ':' ≠ S[j] :=
        Ne.symm (upperHex_ne_colon _ (hHex _ (List.getElem_mem hj)))
      simp [List.isPrefixOf, List.cons_append, hne]
  have hcolon : findFrom out [':'] pre.length = some (S.length + pre.length) := by
    unfold findFrom
    rw [hdropPre, hcolon0]
    rfl
  -- the text from the colon position on
  have hdropCp : out.drop (S.length + pre.length) = ':' :: (digits ++ tail) := by
    rw [hout, List.drop_append_eq_append_drop,
      List.drop_eq_nil_of_le
        (by simp [List.length_append]; omega :
          (pre ++ S).length ≤ S.length + pre.length),
      List.nil_append]
    have h2 : S.length + pre.length - (pre ++ S).length = 0 := by
      simp [List.length_append]
      omega
    rw [h2, List.drop_zero]
  have hdropCp1 : out.drop (S.length + pre.length + 1) = digits ++ tail := by
    have hd : List.drop 1 (out.drop (S.length + pre.length)) =
        out.drop (S.length + pre.length + 1) := List.drop_drop 1 _ _
    rw [← hd, hdropCp, List.drop_succ_cons, List.drop_zero]
  have hcond := check_cond_false c hready hpw
  rcases htail with rfl | ⟨rest, rfl⟩
  · -- final line, no trailing "\r\n"
    have hnl0 : findIdx0 (':' :: (digits ++ [])) ['\r', '\n'] = none := by
      apply findIdx0_eq_none
      intro hinf
      have hmem : '\r' ∈ ':' :: (digits ++ []) := hinf.subset (by simp)
      rcases List.mem_cons.mp hmem with he | hm
      · exact absurd he.symm colon_ne_cr
      · rw [List.append_nil] at hm
        exact absurd rfl (digit_ne_cr '\r' (hdall '\r' hm))
    have hfindNl : findFrom out ['\r', '\n'] (S.length + pre.length) = none := by
      unfold findFrom
      rw [hdropCp, hnl0]
      rfl
    simp only [Breach_checker.check, hcond, Bool.false_eq_true, if_false, hlook,
      hSeq, hfindS, hcolon, hfindNl]
    rw [hdropCp1, List.append_nil,
      stoll_digit_run digits hdne hdall hbound]
  · -- the matching line is followed by "\r\n"
    have hnl0 : findIdx0 (':' :: (digits ++ '\r' :: '\n' :: rest)) ['\r', '\n'] =
        some (digits.length + 1) := by
      apply findIdx0_first _ _ _ (by simp)
      · have hdr : (':' :: (digits ++ '\r' :: '\n' :: rest)).drop (digits.length + 1) =
            '\r' :: '\n' :: rest := by
          rw [List.drop_succ_cons, List.drop_left]
        rw [hdr]
        simp [List.isPrefixOf]
      · intro j hj
        cases j with
        | zero =>
            simp [List.isPrefixOf]
        | succ k =>
            have hk : k < digits.length := by omega
            rw [List.drop_succ_cons, List.drop_append_eq_append_drop]
            have hk0 : k - digits.length = 0 := by omega
            rw [hk0, List.drop_zero, List.drop_eq_getElem_cons hk]
            have hne : '\r' ≠ digits[k] := by
              intro he
              exact absurd he.symm (digit_ne_cr _ (hdall _ (List.getElem_mem hk)))
            simp [List.isPrefixOf, List.cons_append, hne]
    have hfindNl : findFrom out ['\r', '\n'] (S.length + pre.length) =
        some (digits.length + 1 + (S.length + pre.length)) := by
      unfold findFrom
      rw [hdropCp, hnl0]
      rfl
    simp only [Breach_checker.check, hcond, Bool.false_eq_true, if_false, hlook,
      hSeq, hfindS, hcolon, hfindNl]
    have harith : digits.length + 1 + (S.length + pre.length) -
        (S.length + pre.length) - 1 = digits.length := by omega
    rw [hdropCp1, harith, List.take_left,
      stoll_digit_run digits hdne hdall hbound]

/-! ## Claims -/

/-- C1: the claim says that a found suffix with a malformed count field makes
`check()` return the sentinel rather than letting an exception escape.  The
code instead calls `std::stoll` (line 134/137) with no handler anywhere in
`check()`, so `std::invalid_argument` propagates past the `check()` boundary.
Evaluated at the failing input: password `"password"`, successful lookup whose
body is `<computed suffix>:xyz` — the result is the modelled escaped exception
(`.error ()`), not `(.ok MAX_RETVAL)`. -/
theorem malformed_count_exception_escapes_check :
    cPW.check (constTransport respC1) = (.error (), 1) := rfl

/-- C2 (counterexample): a response text whose single line's 35-character
suffix field does not equal the computed digest suffix, yet `check()` returns
42, not 0 — because line 114 searches for the suffix as a raw substring
(`out_data.find(suffix)`), which here matches inside the line at offset 2. -/
theorem substring_hit_without_field_match :
    suffixFields respC2 = ["AB".data ++ suffixPW] ∧
    "AB".data ++ suffixPW ≠ suffixPW ∧
    suffixPW = (generate_digest cPW.password).drop 5 ∧
    cPW.check (constTransport respC2) = (.ok 42, 1) :=
  ⟨rfl, by decide, rfl, rfl⟩

/-- C2 (amended): if the computed digest suffix does not occur as a substring
anywhere in the response text, then `check()` on a ready, non-empty password
with a successful lookup returns 0. -/
theorem no_substring_occurrence_returns_zero (c : Breach_checker) (t : Transport)
    (out : List Char) (n : Nat)
    (hready : c.ready = true) (hpw : c.password ≠ [])
    (hlook : c.password_breach_data t ((generate_digest c.password).take 5) =
      (some out, n))
    (hno : ¬ (generate_digest c.password).drop 5 <:+: out) :
    c.check t = (.ok 0, n) :=
  check_of_no_occurrence c t out n hready hpw hlook hno

/-- C2 (witness): the amended theorem applied to the password `"password"`
and a response body `XYZ` that does not contain the digest suffix. -/
theorem no_substring_occurrence_returns_zero_witness :
    cPW.check (constTransport "XYZ".data) = (.ok 0, 1) :=
  no_substring_occurrence_returns_zero cPW (constTransport "XYZ".data)
    "XYZ".data 1 rfl (by decide) rfl (by decide)

/-- C3 (counterexample): a response containing the line `<suffix>:2` as final
line (no trailing line ending), yet `check()` returns 1: line 114 takes the
FIRST substring occurrence of the suffix, which is the first line
`<suffix>:1`. -/
theorem duplicate_suffix_first_line_shadows_later :
    suffixPW = (generate_digest cPW.password).drop 5 ∧
    splitCRLF respC3 = [suffixPW ++ ":1".data, suffixPW ++ ":2".data] ∧
    cPW.check (constTransport respC3) = (.ok 1, 1) :=
  ⟨rfl, rfl, rfl⟩

/-- C3 (amended): if the FIRST occurrence of the computed digest suffix in the
response text starts a record `<suffix>:<digits>` (digit run within
`long long` range), then `check()` returns exactly the value of that digit
run — both when the record is followed by `"\r\n"` and when it is the final
record with no trailing line ending. -/
theorem first_occurrence_line_count_returned (c : Breach_checker) (t : Transport)
    (S pre digits tail out : List Char) (n : Nat)
    (hready : c.ready = true) (hpw : c.password ≠ [])
    (hSeq : (generate_digest c.password).drop 5 = S)
    (hout : out = pre ++ S ++ ':' :: (digits ++ tail))
    (hfirst : ∀ j, j < pre.length → S.isPrefixOf (out.drop j) = false)
    (hdne : digits ≠ [])
    (hdall : ∀ ch ∈ digits, isDigitC ch = true)
    (hbound : (digitsVal digits : Int) ≤ LLONG_MAX)
    (htail : tail = [] ∨ ∃ rest, tail = '\r' :: '\n' :: rest)
    (hlook : c.password_breach_data t ((generate_digest c.password).take 5) =
      (some out, n)) :
    c.check t = (.ok (digitsVal digits), n) :=
  check_of_shaped c t S pre digits tail out n hready hpw hSeq hout hfirst
    hdne hdall hbound htail hlook

/-- C3 (witness): the spec's worked example — password `"password"`, response
`1E4C9B93F3F0682250B6CF8331B7EE68FD8:3861493` as the final (and only) record,
yields 3861493. -/
theorem first_occurrence_line_count_returned_witness :
    cPW.check (constTransport respSpec) = (.ok 3861493, 1) :=
  first_occurrence_line_count_returned cPW (constTransport respSpec) suffixPW
    [] "3861493".data [] respSpec 1 rfl (by decide) (by decide) (by decide)
    (fun j hj => absurd hj (Nat.not_lt_zero j)) (by decide) (by decide)
    (by decide) (Or.inl rfl) rfl

/-- C4: with a transport that fails on every attempt, `check()` performs
exactly `retry_` transport attempts (the loop of lines 275-309 decrements
`retry` once per failed attempt) and then returns the sentinel.  The default
`retry_` is 3 for both constructors (lines 71, 78). -/
theorem always_failing_transport_retries_then_sentinel (c : Breach_checker)
    (t : Transport) (hready : c.ready = true) (hpw : c.password ≠ [])
    (hfail : ∀ u i, t u i = none) :
    c.check t = (.ok MAX_RETVAL, c.retry) := by
  have hlook : c.password_breach_data t ((generate_digest c.password).take 5) =
      (none, c.retry) := by
    unfold Breach_checker.password_breach_data
    rw [lookupLoop_allFail t _ hfail, Nat.zero_add]
  simp only [Breach_checker.check, check_cond_false c hready hpw,
    Bool.false_eq_true, if_false, hlook]

/-- C4 (witness): the default checker for `"password"` with an always-failing
transport makes exactly 3 attempts and returns the sentinel. -/
theorem always_failing_transport_retries_then_sentinel_witness :
    cPW.check failTransport = (.ok MAX_RETVAL, 3) :=
  always_failing_transport_retries_then_sentinel cPW failTransport rfl
    (by decide) (fun _ _ => rfl)

/-- C5 (counterexample): the sentinel is NOT distinct from every real count: a
completed check over the well-formed matching record `<suffix>:1000000`
returns exactly `MAX_RETVAL`. -/
theorem sentinel_equals_real_count_million :
    suffixPW = (generate_digest cPW.password).drop 5 ∧
    suffixFields respC5 = [suffixPW] ∧
    cPW.check (constTransport respC5) = (.ok MAX_RETVAL, 1) :=
  ⟨rfl, rfl, rfl⟩

/-- C5 (amended): for a completed check whose first suffix occurrence starts a
record `<suffix>:<digits>`, the returned value equals the sentinel
`MAX_RETVAL` exactly when the parsed count itself is 1000000; for any other
parsed count the sentinel remains distinguishable. -/
theorem completed_check_sentinel_iff_count_million (c : Breach_checker)
    (t : Transport) (S pre digits tail out : List Char) (n : Nat)
    (hready : c.ready = true) (hpw : c.password ≠ [])
    (hSeq : (generate_digest c.password).drop 5 = S)
    (hout : out = pre ++ S ++ ':' :: (digits ++ tail))
    (hfirst : ∀ j, j < pre.length → S.isPrefixOf (out.drop j) = false)
    (hdne : digits ≠ [])
    (hdall : ∀ ch ∈ digits, isDigitC ch = true)
    (hbound : (digitsVal digits : Int) ≤ LLONG_MAX)
    (htail : tail = [] ∨ ∃ rest, tail = '\r' :: '\n' :: rest)
    (hlook : c.password_breach_data t ((generate_digest c.password).take 5) =
      (some out, n)) :
    ((c.check t).1 = .ok MAX_RETVAL ↔ digitsVal digits = 1000000) := by
  have hres := check_of_shaped c t S pre digits tail out n hready hpw hSeq hout
    hfirst hdne hdall hbound htail hlook
  rw [hres]
  constructor
  · intro h1
    have h2 : (digitsVal digits : Int) = MAX_RETVAL := Except.ok.inj h1
    rw [MAX_RETVAL] at h2
    omega
  · intro h2
    show Except.ok ((digitsVal digits : Nat) : Int) = Except.ok MAX_RETVAL
    rw [h2]
    rfl

/-- C5 (witness): for the record `<suffix>:1000000` the iff holds with both
sides true (the counterexample scenario), instantiated concretely. -/
theorem completed_check_sentinel_iff_count_million_witness :
    ((cPW.check (constTransport respC5)).1 = .ok MAX_RETVAL ↔
      digitsVal "1000000".data = 1000000) :=
  completed_check_sentinel_iff_count_million cPW (constTransport respC5)
    suffixPW [] "1000000".data [] respC5 1 rfl (by decide) (by decide)
    (by decide) (fun j hj => absurd hj (Nat.not_lt_zero j)) (by decide)
    (by decide) (by decide) (Or.inl rfl) rfl

/-- C6: a checker that is not ready (normalization failed) or whose stored
password is empty returns the sentinel with zero transport attempts (lines
96-100 return before `password_breach_data` is ever called). -/
theorem not_ready_or_empty_sentinel_no_network (c : Breach_checker)
    (t : Transport) (h : c.ready = false ∨ c.password = []) :
    c.check t = (.ok MAX_RETVAL, 0) :=
  check_not_ready_or_empty c t h

/-- C6 (witness): a checker whose string conversion failed (not ready), with a
transport that would fail if consulted: sentinel, zero attempts. -/
theorem not_ready_or_empty_sentinel_no_network_witness :
    (Breach_checker.fromMyHString none).check failTransport =
      (.ok MAX_RETVAL, 0) :=
  not_ready_or_empty_sentinel_no_network (Breach_checker.fromMyHString none)
    failTransport (Or.inl rfl)

/-- C7: the request URL is `URL_PREFIX ++ digest.take 5` (lines 268-269, with
`check()` passing `sha1_digest.substr(0, 5)`, line 107), hence a function of
the first 5 digest characters alone: digests agreeing on the first 5
characters give identical URLs.  Moreover the 35-character digest suffix never
occurs anywhere in the request URL (every 35-character window of the
42-character URL contains the non-hex character `/` at URL index 30). -/
theorem request_url_depends_only_on_prefix5 (p1 p2 q : List Nat)
    (h : (generate_digest p1).take 5 = (generate_digest p2).take 5) :
    URL_PREFIX ++ (generate_digest p1).take 5 =
      URL_PREFIX ++ (generate_digest p2).take 5 ∧
    ¬ (generate_digest q).drop 5 <:+:
        URL_PREFIX ++ (generate_digest q).take 5 := by
  constructor
  · rw [h]
  · intro hinf
    obtain ⟨s, u, hsu⟩ := hinf
    have hSlen : ((generate_digest q).drop 5).length = 35 := by
      simp [List.length_drop, generate_digest_length]
    have hslen : s.length ≤ 7 := by
      have hl := congrArg List.length hsu
      simp only [List.length_append, hSlen, List.length_take,
        generate_digest_length, URL_PREFIX] at hl
      simp at hl
      omega
    set S := (generate_digest q).drop 5 with hSdef
    have hj : 30 - s.length < S.length := by omega
    have hd := congrArg (List.drop 30) hsu
    rw [List.drop_append_eq_append_drop, List.drop_append_eq_append_drop,
      List.drop_eq_nil_of_le (by omega : s.length ≤ 30), List.nil_append,
      List.drop_eq_getElem_cons hj] at hd
    rw [List.drop_append_eq_append_drop,
      (by rfl : URL_PREFIX.drop 30 = '/' :: "range/".data)] at hd
    have hhead := congrArg (fun l => l.headD 'X') hd
    simp only [List.cons_append, List.headD_cons] at hhead
    have hmem : ('/' : Char) ∈ S := hhead ▸ List.getElem_mem hj
    have hhex := generate_digest_hex q '/' (List.drop_subset 5 _ hmem)
    exact absurd hhex (by decide)

/-- C7 (witness): instantiated at the password `"password"` for all three
quantifiers, with the prefix-agreement hypothesis discharged by reflexivity. -/
theorem request_url_depends_only_on_prefix5_witness :
    URL_PREFIX ++ (generate_digest pwBytes).take 5 =
      URL_PREFIX ++ (generate_digest pwBytes).take 5 ∧
    ¬ (generate_digest pwBytes).drop 5 <:+:
        URL_PREFIX ++ (generate_digest pwBytes).take 5 :=
  request_url_depends_only_on_prefix5 pwBytes pwBytes pwBytes rfl

/-- C8: the digest is a pure function of the password bytes (equal byte
sequences give equal digests) and always produces exactly 40 characters, each
an uppercase hexadecimal digit.  (In the model `generate_digest` is total: the
only failure paths in the source are faults of the external crypto library.) -/
theorem digest_deterministic_forty_uppercase_hex (p q : List Nat) (h : p = q) :
    generate_digest p = generate_digest q ∧
    (generate_digest p).length = 40 ∧
    (generate_digest p).all isUpperHex = true := by
  refine ⟨by rw [h], generate_digest_length p, ?_⟩
  rw [List.all_eq_true]
  exact fun ch hch => generate_digest_hex p ch hch

/-- C8 (witness): instantiated at the bytes of `"password"`. -/
theorem digest_deterministic_forty_uppercase_hex_witness :
    generate_digest pwBytes = generate_digest pwBytes ∧
    (generate_digest pwBytes).length = 40 ∧
    (generate_digest pwBytes).all isUpperHex = true :=
  digest_deterministic_forty_uppercase_hex pwBytes pwBytes rfl

/-- C9: the prefix taken by `check()` (line 107) has length 5, the suffix
(line 108) has length 35, and their concatenation is the full 40-character
digest. -/
theorem digest_split_lengths_and_concat (p : List Nat) :
    ((generate_digest p).take 5).length = 5 ∧
    ((generate_digest p).drop 5).length = 35 ∧
    (generate_digest p).take 5 ++ (generate_digest p).drop 5 =
      generate_digest p := by
  refine ⟨?_, ?_, List.take_append_drop 5 _⟩
  · simp [List.length_take, generate_digest_length]
  · simp [List.length_drop, generate_digest_length]

/-- C10: constructing a checker from a null C string (line 71,
`password ? password : ""`) stores the empty password, and `check()` on it
returns the sentinel with zero transport attempts — no dereference of the null
pointer is modelled because the source never dereferences it. -/
theorem null_cstring_constructor_safe (t : Transport) :
    (Breach_checker.fromCString none).password = [] ∧
    (Breach_checker.fromCString none).check t = (.ok MAX_RETVAL, 0) :=
  ⟨rfl, check_not_ready_or_empty _ t (Or.inr rfl)⟩

end PasswordBreachCheck
